import Mathlib

/-!
Verification of the archetype-based ECS runtime.

This file embeds the data model and operations of the ECS library
(handle encoding `Common.h`, `EntityManager`, `Archetype`,
`ComponentArray`, `ArchetypeManager`, `SystemManager`, `Core`) as Lean
definitions and proves or refutes the specified properties about them.

Conventions of the embedding:
* 64-bit unsigned integers are `Nat` with explicit `% 2^64` (or wrapping
  subtraction) at the points where C++ overflow semantics matter.
* `std::set<Component>` (the archetype key `Type`) is a strictly sorted
  `List Nat`; `std::map<Type, Archetype>` is an association list kept
  sorted by the lexicographic order that `std::set::operator<` induces.
* `std::unordered_map` is an association list in insertion order; the
  program only relies on per-key lookup or on uniqueness of a matched
  value, so insertion order is an admissible stand-in for the
  unspecified bucket order.
* a C++ function that can throw (`std::map::at`, explicit `throw`) is
  embedded in `Except Unit`; `.error ()` marks the throwing executions.
* the component value stored in a column is an arbitrary inhabited type
  `V`; the concrete scenarios instantiate it with `Nat`.
-/

namespace ECS

/-- 2^64, the modulus of the C++ `uint64_t` arithmetic. -/
def u64Mod : Nat := 2 ^ 64

/-- Wrapping `uint64_t` subtraction `a - b` (two's complement wrap-around). -/
def wsub (a b : Nat) : Nat := (a + (u64Mod - b % u64Mod)) % u64Mod

/-! ## Handle encoding (`Common.h`, `EntityManager.h/.cpp`)

`entityFlagShifts`: Id starts at bit 0, Generation at bit 32, Type at
bit 56.  `entityTypeFlag`: Entity = 1, Component = 2 shifted to the
Type byte.  `EntityManager::mComponentIdShift` is 24. -/

/-- `entityFlagShifts::Generation` = 32. -/
def generationShift : Nat := 32

/-- `entityFlagShifts::Type` = 56. -/
def typeShift : Nat := 56

/-- `EntityManager::mComponentIdShift` = 24. -/
def componentIdShift : Nat := 24

/-- `entityTypeFlag::Entity` = `1ull << entityFlagShifts::Type`. -/
def entityTypeFlagEntity : Nat := 1 <<< typeShift

/-- `entityTypeFlag::Component` = `2ull << entityFlagShifts::Type`. -/
def entityTypeFlagComponent : Nat := 2 <<< typeShift

/-- `EntityManager::mEntityGeneration` = `1ull << entityFlagShifts::Generation`.
The field is initialised once and never changed by any code path. -/
def entityGenerationConstant : Nat := 1 <<< generationShift

/-- The id handed out by `EntityManager::createEntity` when the counter
`mNextEntityId` holds `n`: `n | mEntityGeneration | entityTypeFlag::Entity`. -/
def mkEntityId (n : Nat) : Nat :=
  n ||| entityGenerationConstant ||| entityTypeFlagEntity

/-- The id handed out by `EntityManager::createComponent` when the counter
`mNextComponentId` holds `n`:
`n << mComponentIdShift | entityTypeFlag::Component` in `uint64_t`. -/
def mkComponentId (n : Nat) : Nat :=
  ((n <<< componentIdShift) % u64Mod) ||| entityTypeFlagComponent

/-- Bits 0 to 31 of a handle (the sequential-index field of the claimed ABI). -/
def idxField (x : Nat) : Nat := x % 2 ^ 32

/-- Bits 32 to 55 of a handle (the generation field of the claimed ABI). -/
def genField (x : Nat) : Nat := (x >>> 32) % 2 ^ 24

/-- Bits 56 to 63 of a handle (the kind-tag byte of the claimed ABI). -/
def tagField (x : Nat) : Nat := (x >>> 56) % 2 ^ 8

/-! ## Association lists

`std::unordered_map` state is carried as an association list; these are
the only operations the embedded code uses. -/

/-- Lookup of a key, `std::unordered_map::find` / `count`-then-`at`. -/
def alist.lookup {β : Type} (l : List (Nat × β)) (k : Nat) : Option β :=
  (l.find? (fun p => p.1 == k)).map (fun p => p.2)

/-- `std::unordered_map::insert { k, v }`: inserts only if the key is absent. -/
def alist.insertNoReplace {β : Type} (l : List (Nat × β)) (k : Nat) (v : β) :
    List (Nat × β) :=
  if (alist.lookup l k).isSome then l else l ++ [(k, v)]

/-- `std::unordered_map::erase k`: removes the entry with key `k`. -/
def alist.erase {β : Type} (l : List (Nat × β)) (k : Nat) : List (Nat × β) :=
  l.filter (fun p => p.1 != k)

/-- Overwrite the value stored at key `k` (assignment through `operator[]`
or through a reference obtained from `at`). -/
def alist.setVal {β : Type} (l : List (Nat × β)) (k : Nat) (v : β) :
    List (Nat × β) :=
  l.map (fun p => if p.1 == k then (p.1, v) else p)

/-! ## `EntityManager` -/

/-- The state of `EntityManager`: `mEntityToHash`, `mHashToComponentId`
and the two counters.  `mEntityGeneration` is a constant
(`entityGenerationConstant`) and is not part of the mutable state. -/
structure EMState where
  entityToHash : List (Nat × Nat)
  hashToComponentId : List (Nat × Nat)
  nextEntityId : Nat
  nextComponentId : Nat
deriving DecidableEq, Repr

/-- The freshly constructed `EntityManager`: both counters start at 1. -/
def emInit : EMState :=
  { entityToHash := [], hashToComponentId := [],
    nextEntityId := 1, nextComponentId := 1 }

/-- `EntityManager::createEntity`.  The entity hash recorded is
`typeid(Entity).hash_code()`; its value never matters, only that the key
becomes present, so it is taken as a parameter of the embedding. -/
def emCreateEntity (entityHash : Nat) (s : EMState) : Nat × EMState :=
  let id := mkEntityId s.nextEntityId
  (id, { s with
          entityToHash := alist.insertNoReplace s.entityToHash id entityHash,
          nextEntityId := (s.nextEntityId + 1) % u64Mod })

/-- `EntityManager::createComponent<T>`; `tHash` stands for
`typeid(T).hash_code()`. -/
def emCreateComponent (tHash : Nat) (s : EMState) : Nat × EMState :=
  let id := mkComponentId s.nextComponentId
  (id, { s with
          entityToHash := alist.insertNoReplace s.entityToHash id tHash,
          nextComponentId := (s.nextComponentId + 1) % u64Mod })

/-- `EntityManager::destroy`: erases the id from `mEntityToHash` only. -/
def emDestroy (s : EMState) (id : Nat) : EMState :=
  { s with entityToHash := alist.erase s.entityToHash id }

/-- `EntityManager::isValid(id)`. -/
def emIsValid (s : EMState) (id : Nat) : Bool :=
  (alist.lookup s.entityToHash id).isSome

/-- `EntityManager::isValid(id, underlyingType)`. -/
def emIsValidHash (s : EMState) (id underlyingType : Nat) : Bool :=
  match alist.lookup s.entityToHash id with
  | none => false
  | some h => underlyingType == h

/-- `EntityManager::makeFoundationComponent`: throws when `id` is not in
`mEntityToHash` (`at` on a missing key). -/
def emMakeFoundationComponent (s : EMState) (id : Nat) : Except Unit EMState :=
  match alist.lookup s.entityToHash id with
  | none => .error ()
  | some h =>
    .ok { s with hashToComponentId := alist.insertNoReplace s.hashToComponentId h id }

/-- `EntityManager::getComponentIdOf` by hash: throws when the hash has no
default component. -/
def emGetComponentIdOf (s : EMState) (tHash : Nat) : Except Unit Nat :=
  match alist.lookup s.hashToComponentId tHash with
  | none => .error ()
  | some id => .ok id

/-! ## Component sets (`ecs::Type` = `std::set<Component>`)

A `std::set` of 64-bit handles is a strictly ascending sorted list;
`operator<` on two sets is the lexicographic comparison of those lists,
which is what orders the keys of `std::map<Type, Archetype>`. -/

/-- Ordered insertion into a sorted duplicate-free list
(`std::set::insert` / `emplace`: no effect when the element is present). -/
def setInsert (x : Nat) : List Nat → List Nat
  | [] => [x]
  | y :: ys =>
    if x = y then y :: ys
    else if x < y then x :: y :: ys
    else y :: setInsert x ys

/-- `std::set::erase x`. -/
def setErase (s : List Nat) (x : Nat) : List Nat := s.filter (fun y => y != x)

/-- `std::set::operator<`: lexicographic comparison of the ascending
element sequences. -/
def listLexLt : List Nat → List Nat → Bool
  | _, [] => false
  | [], _ :: _ => true
  | a :: as, b :: bs =>
    if a < b then true else if b < a then false else listLexLt as bs

/-! ## `ComponentArray` and `Archetype`

An archetype is its `mIdToComponentIndex` map fused with the
`mComponents` vector it indexes: an association list from component id
to that id's column.  The column entries appear in the order the
component arrays were created, and the loops of `transferTo` /
`transferFrom` walk that list. -/

/-- An archetype: component id to column of stored values. -/
abbrev Archetype (V : Type) : Type := List (Nat × List V)

/-- The column stored for a component id, `mComponents[mIdToComponentIndex.at(id)]`. -/
def alookup {V : Type} (a : Archetype V) (id : Nat) : Option (List V) :=
  alist.lookup a id

/-- Replace the column stored for a component id (in-place mutation of the
pointed-to `ComponentArray`). -/
def aset {V : Type} (a : Archetype V) (id : Nat) (col : List V) : Archetype V :=
  alist.setVal a id col

/-- The column lengths of an archetype in column order; the common value
is the archetype's row count when the parity invariant holds. -/
def archColLengths {V : Type} (a : Archetype V) : List Nat :=
  a.map (fun p => p.2.length)

/-- `ComponentArray::moveLastItem` and the swap-then-pop inside
`transferItemTo` have the same effect on the vector: the last element
lands at `i` and the length drops by one. -/
def swapRemoveCol {V : Type} [Inhabited V] (c : List V) (i : Nat) : List V :=
  (c.set i (c.getD (c.length - 1) default)).dropLast

/-- `ComponentArray::transferItemTo` for two distinct arrays: appends
`src[i]` to `dst`, swap-removes `src[i]`, and returns the new length of
`src`, which is the previous index of the row that moved into slot `i`. -/
def transferItemToCols {V : Type} [Inhabited V] (src dst : List V) (i : Nat) :
    List V × List V × Nat :=
  let v := src.getD i default
  let src' := swapRemoveCol src i
  (src', dst ++ [v], src'.length)

/-- `Archetype::createComponentArray<T>(id)`: a new empty column at the end. -/
def archCreateComponentArray {V : Type} (a : Archetype V) (id : Nat) : Archetype V :=
  a ++ [(id, [])]

/-- `Archetype::Archetype(const Archetype &)`: shallow copy, same component
ids in the same order, fresh empty arrays (`makeArray`). -/
def archCopyEmpty {V : Type} (a : Archetype V) : Archetype V :=
  a.map (fun p => (p.1, ([] : List V)))

/-- `Archetype::Archetype(const Archetype &, const Type &type)`: one fresh
empty column per element of `type`, in the set's order. -/
def archSubClone {V : Type} (t : List Nat) : Archetype V :=
  t.map (fun c => (c, ([] : List V)))

/-- `Archetype::pushBack`: append to the column of `id`, return the index of
the appended element (the column length before the push). -/
def archPushBack {V : Type} (a : Archetype V) (id : Nat) (v : V) :
    Archetype V × Nat :=
  let col := (alookup a id).getD []
  (aset a id (col ++ [v]), col.length)

/-- `Archetype::moveLastComponent`: `moveLastItem` on the column of
`component`; throws when the archetype has no such column. -/
def archMoveLastComponent {V : Type} [Inhabited V] (a : Archetype V)
    (id : Nat) (i : Nat) : Except Unit (Archetype V) :=
  match alookup a id with
  | none => .error ()
  | some col => .ok (aset a id (swapRemoveCol col i))

/-- The loop of `Archetype::transferTo` over the source's component ids:
each source column sends row `i` to the target's paired column;
`newArchetype.mIdToComponentIndex.at(id)` throws when the target lacks a
source kind.  `movedIndex` keeps the return value of the last
`transferItemTo`. -/
def transferToGo {V : Type} [Inhabited V] :
    List (Nat × List V) → Archetype V → Archetype V → Nat → Nat →
    Except Unit (Archetype V × Archetype V × Nat)
  | [], src, dst, _, movedIndex => .ok (src, dst, movedIndex)
  | (id, _) :: rest, src, dst, i, _ =>
    match alookup dst id with
    | none => .error ()
    | some dcol =>
      let scol := (alookup src id).getD []
      let (scol', dcol', mi) := transferItemToCols scol dcol i
      transferToGo rest (aset src id scol') (aset dst id dcol') i mi

/-- `Archetype::transferTo(newArchetype, dataIndex)` for two distinct
archetype objects. -/
def transferToA {V : Type} [Inhabited V] (src dst : Archetype V) (i : Nat) :
    Except Unit (Archetype V × Archetype V × Nat) :=
  transferToGo src src dst i 0

/-- `Archetype::transferTo` when `newArchetype` is the same object as the
source (`addOld` re-adding a component the entity already has): every
per-column append-swap-pop cancels out, each iteration returns the
unchanged column length, so `movedIndex` ends as the last column's
length (`0` when the archetype has no columns). -/
def selfTransferMovedIndex {V : Type} (a : Archetype V) : Nat :=
  (archColLengths a).getLastD 0

/-- The loop of `Archetype::transferFrom` over the destination's component
ids: pulls row `i` from each paired source column; `count` keeps
`oldIComponentArray->count()` of the last iteration, the length of that
source column after the removal. -/
def transferFromGo {V : Type} [Inhabited V] :
    List (Nat × List V) → Archetype V → Archetype V → Nat → Nat → Nat →
    Except Unit (Archetype V × Archetype V × Nat × Nat)
  | [], dst, src, _, movedIndex, count => .ok (dst, src, movedIndex, count)
  | (id, _) :: rest, dst, src, i, _, _ =>
    match alookup src id with
    | none => .error ()
    | some scol =>
      let dcol := (alookup dst id).getD []
      let (scol', dcol', mi) := transferItemToCols scol dcol i
      transferFromGo rest (aset dst id dcol') (aset src id scol') i mi scol'.length

/-- `Archetype::transferFrom(oldArchetype, dataIndex)` for two distinct
archetype objects: returns `(this', old', movedIndex, count)`. -/
def transferFromA {V : Type} [Inhabited V] (dst src : Archetype V) (i : Nat) :
    Except Unit (Archetype V × Archetype V × Nat × Nat) :=
  transferFromGo dst dst src i 0 0

/-! ## `ArchetypeManager` -/

/-- `ecs::EntityInformation`: the component set an entity has and the row
its data occupies. -/
structure EntityInformation where
  type : List Nat
  componentIndex : Nat
deriving DecidableEq, Repr

/-- The state of `ArchetypeManager`: the sorted-key map
`std::map<Type, Archetype> mArchetypes` and the directory
`std::unordered_map<Entity, EntityInformation> mEntityInformation`. -/
structure AMState (V : Type) where
  archetypes : List (List Nat × Archetype V)
  entityInformation : List (Nat × EntityInformation)
deriving DecidableEq, Repr

/-- The empty `ArchetypeManager`. -/
def amInit (V : Type) : AMState V := { archetypes := [], entityInformation := [] }

/-- `std::map::emplace` into the sorted-key archetype map: ordered insert,
no effect when the key is already present. -/
def mapInsertArch {V : Type} (k : List Nat) (a : Archetype V) :
    List (List Nat × Archetype V) → List (List Nat × Archetype V)
  | [] => [(k, a)]
  | (k', a') :: rest =>
    if k = k' then (k', a') :: rest
    else if listLexLt k k' then (k, a) :: (k', a') :: rest
    else (k', a') :: mapInsertArch k a rest

/-- `ArchetypeManager::findArchetype`. -/
def findA {V : Type} (s : AMState V) (t : List Nat) : Option (Archetype V) :=
  (s.archetypes.find? (fun p => p.1 == t)).map (fun p => p.2)

/-- Write back an archetype that was mutated through the pointer
`findArchetype` returned. -/
def storeA {V : Type} (s : AMState V) (t : List Nat) (a : Archetype V) : AMState V :=
  { s with archetypes := s.archetypes.map (fun p => if p.1 == t then (p.1, a) else p) }

/-- The loop of `ArchetypeManager::entityMovedIndex`: rewrite the
`componentIndex` of the first entry whose value equals `target`, then
return. -/
def entityMovedIndexGo (newIndex : Nat) (target : EntityInformation) :
    List (Nat × EntityInformation) → List (Nat × EntityInformation)
  | [] => []
  | (e, info) :: rest =>
    if info = target then (e, { info with componentIndex := newIndex }) :: rest
    else (e, info) :: entityMovedIndexGo newIndex target rest

/-- `ArchetypeManager::entityMovedIndex(newIndex, entityInformation)`. -/
def entityMovedIndexS {V : Type} (s : AMState V) (newIndex : Nat)
    (target : EntityInformation) : AMState V :=
  { s with entityInformation := entityMovedIndexGo newIndex target s.entityInformation }

/-- Overwrite the directory entry of `entity` (the final writes through the
`info` reference in `addOld` / `remove`). -/
def setEntityInfo {V : Type} (s : AMState V) (entity : Nat)
    (info : EntityInformation) : AMState V :=
  { s with entityInformation := alist.setVal s.entityInformation entity info }

/-- `ArchetypeManager::subCloneArchetype(subType, baseType)`: creates the
`subType` archetype from the base's schema when absent; throws when the
base archetype does not exist either. -/
def subCloneArchetypeS {V : Type} (s : AMState V) (subType baseType : List Nat) :
    Except Unit (AMState V) :=
  if (findA s subType).isSome then .ok s
  else
    match findA s baseType with
    | none => .error ()
    | some _ =>
      .ok { s with archetypes := mapInsertArch subType (archSubClone subType) s.archetypes }

/-- `ArchetypeManager::addNew` (`src/src/components/ArchetypeManager.h`):
creates the singleton archetype for the component when absent, pushes the
value, and inserts the entity's directory entry. -/
def addNew {V : Type} (s : AMState V) (entity component : Nat) (v : V) : AMState V :=
  let s1 :=
    if (findA s [component]).isSome then s
    else { s with
            archetypes :=
              mapInsertArch [component]
                (archCreateComponentArray ([] : Archetype V) component) s.archetypes }
  let arch := (findA s1 [component]).getD []
  let (arch', index) := archPushBack arch component v
  let s2 := storeA s1 [component] arch'
  { s2 with
      entityInformation :=
        alist.insertNoReplace s2.entityInformation entity
          { type := [component], componentIndex := index } }

/-- `ArchetypeManager::cloneArchetype<T>(id, baseType, baseArchetype)`:
shallow-copies the base schema, appends a column for `id`, and emplaces
under `baseType ∪ {id}` when that key is absent. -/
def cloneArchetypeS {V : Type} (s : AMState V) (id : Nat) (baseType : List Nat)
    (baseArchetype : Archetype V) : AMState V :=
  let newType := setInsert id baseType
  if (findA s newType).isSome then s
  else
    { s with
        archetypes :=
          mapInsertArch newType
            (archCreateComponentArray (archCopyEmpty baseArchetype) id) s.archetypes }

/-- `ArchetypeManager::addOld` (`src/src/components/ArchetypeManager.h`).
When the component is already in the entity's set, `newType` equals
`info.type` and `findArchetype` hands `transferTo` the same object for
source and target, which leaves the columns unchanged and returns the
last column's length; the embedding reproduces that aliased execution in
the first branch. -/
def addOld {V : Type} [Inhabited V] (s : AMState V) (entity component : Nat)
    (v : V) : Except Unit (AMState V) :=
  match alist.lookup s.entityInformation entity with
  | none => .error ()
  | some info =>
    let newType := setInsert component info.type
    match findA s info.type with
    | none => .error ()
    | some oldArchetype =>
      let s1 := cloneArchetypeS s component info.type oldArchetype
      if newType = info.type then
        let movedIndex := selfTransferMovedIndex ((findA s1 info.type).getD [])
        let s2 := entityMovedIndexS s1 info.componentIndex
          { type := info.type, componentIndex := movedIndex }
        let (archN, index) :=
          archPushBack ((findA s2 newType).getD []) component v
        let s3 := storeA s2 newType archN
        .ok (setEntityInfo s3 entity { type := newType, componentIndex := index })
      else
        match transferToA ((findA s1 info.type).getD [])
            ((findA s1 newType).getD []) info.componentIndex with
        | .error () => .error ()
        | .ok (src', dst', movedIndex) =>
          let s2 := storeA (storeA s1 info.type src') newType dst'
          let s3 := entityMovedIndexS s2 info.componentIndex
            { type := info.type, componentIndex := movedIndex }
          let (archN, index) := archPushBack ((findA s3 newType).getD []) component v
          let s4 := storeA s3 newType archN
          .ok (setEntityInfo s4 entity { type := newType, componentIndex := index })

/-- `ArchetypeManager::add`: dispatch on directory membership. -/
def amAdd {V : Type} [Inhabited V] (s : AMState V) (entity component : Nat)
    (v : V) : Except Unit (AMState V) :=
  if (alist.lookup s.entityInformation entity).isSome then
    addOld s entity component v
  else .ok (addNew s entity component v)

/-- `ArchetypeManager::remove` (`src/src/ecs/components/ArchetypeManager.cpp`).
When the component is not in the entity's set, `newType` equals
`info.type`, the self-aliased `transferFrom` leaves the columns
unchanged, and `moveLastComponent` then throws because the archetype has
no column for the component; that execution is the `.error` of the
aliased branch.  The final directory write uses `count - 1` in
`uint64_t` arithmetic, i.e. `wsub count 1`. -/
def amRemove {V : Type} [Inhabited V] (s : AMState V) (entity component : Nat) :
    Except Unit (AMState V) :=
  match alist.lookup s.entityInformation entity with
  | none => .error ()
  | some info =>
    let newType := setErase info.type component
    match findA s info.type with
    | none => .error ()
    | some _ =>
      match subCloneArchetypeS s newType info.type with
      | .error () => .error ()
      | .ok s1 =>
        if newType = info.type then .error ()
        else
          match transferFromA ((findA s1 newType).getD [])
              ((findA s1 info.type).getD []) info.componentIndex with
          | .error () => .error ()
          | .ok (dst', src', movedIndex, count) =>
            let s2 := storeA (storeA s1 newType dst') info.type src'
            match archMoveLastComponent ((findA s2 info.type).getD [])
                component info.componentIndex with
            | .error () => .error ()
            | .ok oldArch' =>
              let s3 := storeA s2 info.type oldArch'
              let s4 := entityMovedIndexS s3 info.componentIndex
                { type := info.type, componentIndex := movedIndex }
              .ok (setEntityInfo s4 entity
                { type := newType, componentIndex := wsub count 1 })

/-- `ecs::includes(set, subset)` (`src/src/ecs/Common.cpp`): `std::all_of`
over the subset of `std::any_of` over the set. -/
def includes (set subset : List Nat) : Bool :=
  subset.all (fun subSetId => set.any (fun setId => setId == subSetId))

/-- `ArchetypeManager::getArchetypesWithSubset`: walks the sorted-key map
in order and keeps the archetypes whose key includes `uType`.  The C++
returns pointers into the map; the embedding returns the map entries
those pointers identify. -/
def getArchetypesWithSubset {V : Type} (s : AMState V) (uType : List Nat) :
    List (List Nat × Archetype V) :=
  s.archetypes.filter (fun p => includes p.1 uType)

/-- Modelled from the spec: `ArchetypeManager::getComponent` — declared in
the header `src/src/ecs/components/ArchetypeManager.h`, which is not
among the sources (only this manager's `.cpp` is).  Per the spec the
typed read is the directory lookup of the entity followed by the indexed
read of the component's column (`get<T>(kind, row)`); the manager holds
no liveness state, so no generation check can occur here. -/
def amGetComponent {V : Type} (s : AMState V) (entity component : Nat) :
    Except Unit V :=
  match alist.lookup s.entityInformation entity with
  | none => .error ()
  | some info =>
    match findA s info.type with
    | none => .error ()
    | some arch =>
      match alookup arch component with
      | none => .error ()
      | some col =>
        match col.get? info.componentIndex with
        | none => .error ()
        | some v => .ok v

/-! ## `SystemManager` and system dispatch

A registered system is reduced to the data the scheduler acts on: an
identifying number, its `mExecutionOrder`
(`PreUpdate = 0, Update = 1, PreRender = 2, Render = 3, ImGui = 4`), and
the component-id list stored beside it (`SystemUTypePair::uType`).  A
phase run is observed as the trace of calls the loops make:
`system->onUpdate()` then `iEntities->callbackProcessEntities(uType)`
for each pair, in vector order. -/

/-- A registered system as the `SystemManager` sees it. -/
structure SysR where
  sysId : Nat
  order : Nat
  uType : List Nat
deriving DecidableEq, Repr

/-- The five phase vectors of `SystemManager`. -/
structure SMState where
  preUpdateSystems : List SysR
  updateSystems : List SysR
  preRenderSystems : List SysR
  renderSystems : List SysR
  imGuiSystems : List SysR
deriving DecidableEq, Repr

/-- The empty `SystemManager`. -/
def smInit : SMState :=
  { preUpdateSystems := [], updateSystems := [], preRenderSystems := [],
    renderSystems := [], imGuiSystems := [] }

/-- `SystemManager::addSystem`: `push_back` onto the vector selected by
`getExecutionOrder()`; the `default` case of the switch drops the system. -/
def smAddSystem (sm : SMState) (s : SysR) : SMState :=
  match s.order with
  | 0 => { sm with preUpdateSystems := sm.preUpdateSystems ++ [s] }
  | 1 => { sm with updateSystems := sm.updateSystems ++ [s] }
  | 2 => { sm with preRenderSystems := sm.preRenderSystems ++ [s] }
  | 3 => { sm with renderSystems := sm.renderSystems ++ [s] }
  | 4 => { sm with imGuiSystems := sm.imGuiSystems ++ [s] }
  | _ => sm

/-- One observable call made by a phase loop. -/
inductive SysEv where
  | prelude (sysId : Nat)
  | iterate (sysId : Nat) (uType : List Nat)
deriving DecidableEq, Repr

/-- The body of each phase loop: `system->onUpdate();` then
`iEntities->callbackProcessEntities(uType);`. -/
def sysSteps (s : SysR) : List SysEv :=
  [SysEv.prelude s.sysId, SysEv.iterate s.sysId s.uType]

/-- The trace of one vector's loop. -/
def runPhase (l : List SysR) : List SysEv := l.flatMap sysSteps

/-- `SystemManager::update()`: the PreUpdate loop then the Update loop.
The function reads the vectors and never modifies them. -/
def smUpdate (sm : SMState) : List SysEv :=
  runPhase sm.preUpdateSystems ++ runPhase sm.updateSystems

/-- `SystemManager::render()`: the PreRender loop then the Render loop. -/
def smRender (sm : SMState) : List SysEv :=
  runPhase sm.preRenderSystems ++ runPhase sm.renderSystems

/-- `SystemManager::imGui()`: the ImGui loop. -/
def smImGui (sm : SMState) : List SysEv :=
  runPhase sm.imGuiSystems

/-! ## `Core` (`src/src/Core.cpp`, `src/include/Core.h`) -/

/-- `ecs::verifySystem` (`src/src/Core.cpp`): throws when the two lists
differ in length, and when any aligned pair fails
`EntityManager::isValid(uType[i], underlyingTypeHashes[i])`. -/
def verifySystemE (em : EMState) (uType : List Nat)
    (underlyingTypeHashes : List Nat) : Except Unit Unit :=
  if underlyingTypeHashes.length != uType.length then .error ()
  else if (uType.zip underlyingTypeHashes).all
      (fun p => emIsValidHash em p.1 p.2) then .ok ()
  else .error ()

/-- The auto-initialise merge in `Core::createSystem`: start from the
system's default components and overwrite the prefix the caller gave
(`components[i] = uType[i]` for each `i < uType.size()`). -/
def mergeComponents (defaults uType : List Nat) : List Nat :=
  (List.range defaults.length).map
    (fun i => if i < uType.length then uType.getD i 0 else defaults.getD i 0)

/-- `Core::createSystem(uType, ...)` (`src/include/Core.h`): obtains the
system's underlying type hashes, runs `verifySystem`, and only then
`mSystemManager.addSystem`.  A thrown verification leaves the
`SystemManager` untouched, which `Except.error` models by producing no
successor state. -/
def coreCreateSystem (em : EMState) (sm : SMState) (uType : List Nat)
    (typeHashes : List Nat) (sys : SysR) (autoInitialise : Bool)
    (defaults : List Nat) : Except Unit SMState :=
  if autoInitialise then
    let components := mergeComponents defaults uType
    match verifySystemE em components typeHashes with
    | .error () => .error ()
    | .ok () => .ok (smAddSystem sm { sys with uType := components })
  else
    match verifySystemE em uType typeHashes with
    | .error () => .error ()
    | .ok () => .ok (smAddSystem sm { sys with uType := uType })

/-- `Core::getComponent<T>(entity, component)` (`src/include/Core.h`):
validates only that the component id matches `typeid(T).hash_code()`,
then reads through the `ArchetypeManager`; the entity handle itself is
never validated. -/
def coreGetComponent {V : Type} (em : EMState) (am : AMState V)
    (entity component tHash : Nat) : Except Unit V :=
  if emIsValidHash em component tHash then amGetComponent am entity component
  else .error ()

/-- The combined state the `Core` object owns (`mEntityManager`,
`mArchetypeManager`, `mSystemManager`). -/
structure World (V : Type) where
  em : EMState
  am : AMState V
  sm : SMState
deriving DecidableEq, Repr

/-- `EntityManager::destroy` acting on the whole world: the member
function can touch nothing but the `EntityManager`'s own map. -/
def worldDestroy {V : Type} (w : World V) (id : Nat) : World V :=
  { w with em := emDestroy w.em id }

/-! ## Concrete scenarios

Component ids: `1` plays `kind_of_Velocity`, `2` plays `kind_of_Position`
(registration order of scenario S1).  Entities are `100 + k` for the
`k`-th created entity.  The stored value type is `Nat`. -/

/-- One S1 entity setup: `add(entity, Velocity{0,0}); add(entity, Position{0,0})`. -/
def addBoth (s : AMState Nat) (e : Nat) : Except Unit (AMState Nat) := do
  let s1 ← amAdd s e 1 0
  amAdd s1 e 2 0

/-- Scenario S1's archetype state: ten entities each given Velocity then
Position. -/
def s1State : Except Unit (AMState Nat) :=
  (List.range 10).foldlM (fun s k => addBoth s (100 + k)) (amInit Nat)

/-- Scenario S2: continue S1 by removing Velocity from the 6th created
entity (`105`). -/
def s2State : Except Unit (AMState Nat) :=
  s1State >>= fun s => amRemove s 105 1

/-- The directory invariant of the spec at one entity: its entry exists,
the archetype keyed by its set exists, and its row index is strictly
below that archetype's row count (the common column length). -/
def dirInvariantAt (s : AMState Nat) (e : Nat) : Bool :=
  match alist.lookup s.entityInformation e with
  | none => false
  | some info =>
    match findA s info.type with
    | none => false
    | some arch => decide (info.componentIndex < (archColLengths arch).headD 0)

/-- Claim C2's input: one entity carrying component kind `1` with value 7. -/
def c2Before : AMState Nat := addNew (amInit Nat) 100 1 7

/-- Claim C2's operation: a second `add` of kind `1`, now with value 9. -/
def c2After : Except Unit (AMState Nat) := amAdd c2Before 100 1 9

/-- Claim C9's input: entity `100` carries kind `1` (value 7) and not kind `2`. -/
def c9Before : AMState Nat := addNew (amInit Nat) 100 1 7

/-- Claim C9's round trip: `add(e, 2, 9)` then `remove(e, 2)`. -/
def c9After : Except Unit (AMState Nat) := do
  let s1 ← amAdd c9Before 100 2 9
  amRemove s1 100 2

/-! ## Theorems -/

/-- `ecs::includes` decides exactly the superset relation: every element
of `subset` occurs in `set`. -/
theorem includes_eq_true_iff (set subset : List Nat) :
    includes set subset = true ↔ ∀ c ∈ subset, c ∈ set := by
  simp [includes, List.all_eq_true, List.any_eq_true]

/-- `std::set::operator<` is irreflexive. -/
theorem listLexLt_self_eq_false (l : List Nat) : listLexLt l l = false := by
  induction l with
  | nil => rfl
  | cons a as ih =>
    have h : listLexLt (a :: as) (a :: as) =
        if a < a then true else if a < a then false else listLexLt as as := rfl
    rw [h, if_neg (lt_irrefl a), if_neg (lt_irrefl a), ih]

/-- C4: `getArchetypesWithSubset(required)` keeps, of the sorted-key
archetype map, exactly the entries whose key contains every element of
`required` (so an empty `required` matches everything); the result is a
sublist of the map — each matching archetype appears exactly once, in
the map's ascending lexicographic key order, hence identically across
repeated calls on an unchanged store. -/
theorem claim4_subset_query_filters_sorted_store {V : Type} (s : AMState V)
    (u : List Nat)
    (hsorted : s.archetypes.Pairwise (fun a b => listLexLt a.1 b.1 = true)) :
    (∀ p ∈ s.archetypes, (p ∈ getArchetypesWithSubset s u ↔ ∀ c ∈ u, c ∈ p.1))
    ∧ (u = [] → getArchetypesWithSubset s u = s.archetypes)
    ∧ (getArchetypesWithSubset s u).Sublist s.archetypes
    ∧ (getArchetypesWithSubset s u).Pairwise (fun a b => listLexLt a.1 b.1 = true)
    ∧ ((getArchetypesWithSubset s u).map Prod.fst).Nodup := by
  have hsub : (getArchetypesWithSubset s u).Sublist s.archetypes :=
    List.filter_sublist s.archetypes
  have hpw : (getArchetypesWithSubset s u).Pairwise
      (fun a b => listLexLt a.1 b.1 = true) := hsorted.sublist hsub
  refine ⟨?_, ?_, hsub, hpw, ?_⟩
  · intro p hp
    rw [← includes_eq_true_iff]
    constructor
    · intro hmem
      exact (List.mem_filter.mp hmem).2
    · intro hinc
      exact List.mem_filter.mpr ⟨hp, hinc⟩
  · intro hu
    subst hu
    exact List.filter_eq_self.mpr (fun p _ => by simp [includes])
  · refine List.Pairwise.map Prod.fst ?_ hpw
    intro a b hlt hEq
    rw [hEq, listLexLt_self_eq_false b.1] at hlt
    exact Bool.false_ne_true hlt

/-- Witness for C4 at a concrete sorted store of three archetypes and
the required list `[1, 2]`. -/
theorem claim4_subset_query_filters_sorted_store_witness :
    (([([1], [(1, [5])]), ([1, 2], []), ([2], [])] :
        List (List Nat × Archetype Nat)).Pairwise
      (fun a b => listLexLt a.1 b.1 = true))
    ∧ (let s : AMState Nat :=
        { archetypes := [([1], [(1, [5])]), ([1, 2], []), ([2], [])],
          entityInformation := [] }
       (∀ p ∈ s.archetypes, (p ∈ getArchetypesWithSubset s [1, 2] ↔
          ∀ c ∈ [1, 2], c ∈ p.1))
       ∧ ([1, 2] = ([] : List Nat) → getArchetypesWithSubset s [1, 2] = s.archetypes)
       ∧ (getArchetypesWithSubset s [1, 2]).Sublist s.archetypes
       ∧ (getArchetypesWithSubset s [1, 2]).Pairwise
           (fun a b => listLexLt a.1 b.1 = true)
       ∧ ((getArchetypesWithSubset s [1, 2]).map Prod.fst).Nodup) :=
  ⟨by decide, claim4_subset_query_filters_sorted_store _ [1, 2] (by decide)⟩

/-- How `SystemManager::addSystem` changes each phase vector: the system
is appended to exactly the vector its execution order selects. -/
theorem smAddSystem_fields (sm : SMState) (s : SysR) :
    (smAddSystem sm s).preUpdateSystems =
      sm.preUpdateSystems ++ (if s.order == 0 then [s] else [])
    ∧ (smAddSystem sm s).updateSystems =
      sm.updateSystems ++ (if s.order == 1 then [s] else [])
    ∧ (smAddSystem sm s).preRenderSystems =
      sm.preRenderSystems ++ (if s.order == 2 then [s] else [])
    ∧ (smAddSystem sm s).renderSystems =
      sm.renderSystems ++ (if s.order == 3 then [s] else [])
    ∧ (smAddSystem sm s).imGuiSystems =
      sm.imGuiSystems ++ (if s.order == 4 then [s] else []) := by
  rcases s with ⟨i, o, u⟩
  rcases o with _ | _ | _ | _ | _ | n <;> simp [smAddSystem]

/-- Registering a list of systems in order fills each phase vector with
exactly the systems of that phase, in registration order, appended after
whatever the vector already held. -/
theorem smFold_phases (regs : List SysR) (init : SMState) :
    (regs.foldl smAddSystem init).preUpdateSystems =
      init.preUpdateSystems ++ regs.filter (fun s => s.order == 0)
    ∧ (regs.foldl smAddSystem init).updateSystems =
      init.updateSystems ++ regs.filter (fun s => s.order == 1)
    ∧ (regs.foldl smAddSystem init).preRenderSystems =
      init.preRenderSystems ++ regs.filter (fun s => s.order == 2)
    ∧ (regs.foldl smAddSystem init).renderSystems =
      init.renderSystems ++ regs.filter (fun s => s.order == 3)
    ∧ (regs.foldl smAddSystem init).imGuiSystems =
      init.imGuiSystems ++ regs.filter (fun s => s.order == 4) := by
  induction regs generalizing init with
  | nil => simp
  | cons s rest ih =>
    obtain ⟨h0, h1, h2, h3, h4⟩ := ih (smAddSystem init s)
    obtain ⟨g0, g1, g2, g3, g4⟩ := smAddSystem_fields init s
    refine ⟨?_, ?_, ?_, ?_, ?_⟩ <;>
      simp only [List.foldl_cons, h0, h1, h2, h3, h4, g0, g1, g2, g3, g4,
        List.filter_cons, List.append_assoc] <;>
      split <;> simp

/-- C5: for a `SystemManager` built by registering `regs` in order,
`update()` runs every PreUpdate system and then every Update system,
`render()` every PreRender then every Render system, and `imGui()` the
ImGui systems; within each phase the systems run in registration order,
and for each system the `onUpdate` prelude precedes its
`callbackProcessEntities` iteration pass.  The run functions read the
phase vectors and never modify them, so the order is the same on every
tick. -/
theorem claim5_phase_dispatch_in_registration_order (regs : List SysR) :
    smUpdate (regs.foldl smAddSystem smInit) =
      runPhase (regs.filter (fun s => s.order == 0)) ++
      runPhase (regs.filter (fun s => s.order == 1))
    ∧ smRender (regs.foldl smAddSystem smInit) =
      runPhase (regs.filter (fun s => s.order == 2)) ++
      runPhase (regs.filter (fun s => s.order == 3))
    ∧ smImGui (regs.foldl smAddSystem smInit) =
      runPhase (regs.filter (fun s => s.order == 4)) := by
  obtain ⟨h0, h1, h2, h3, h4⟩ := smFold_phases regs smInit
  refine ⟨?_, ?_, ?_⟩
  · simp only [smUpdate]
    rw [h0, h1]
    simp [smInit]
  · simp only [smRender]
    rw [h2, h3]
    simp [smInit]
  · simp only [smImGui]
    rw [h4]
    simp [smInit]

/-- C6: system registration (`Core::createSystem` with an explicit
component list, the scenario-S4 path) runs `ecs::verifySystem`, which
throws unless the component-handle list and the system's underlying
type-hash list have equal length and every aligned pair passes
`EntityManager::isValid(handle, hash)`; the throw happens before
`SystemManager::addSystem`, so no system is added to any phase list and
the system-manager state is unchanged.  (The auto-initialise path
verifies the merged component list the same way before adding.) -/
theorem claim6_registration_mismatch_throws_before_adding (em : EMState)
    (sm : SMState) (uType typeHashes : List Nat) (sys : SysR)
    (defaults : List Nat)
    (hbad : ¬(typeHashes.length = uType.length ∧
      ∀ p ∈ uType.zip typeHashes, emIsValidHash em p.1 p.2 = true)) :
    verifySystemE em uType typeHashes = .error ()
    ∧ coreCreateSystem em sm uType typeHashes sys false defaults = .error () := by
  have hv : verifySystemE em uType typeHashes = .error () := by
    unfold verifySystemE
    by_cases hlen : typeHashes.length = uType.length
    · have hb : (typeHashes.length != uType.length) = false := by simp [hlen]
      rw [hb]
      have hall : ¬((uType.zip typeHashes).all
          (fun p => emIsValidHash em p.1 p.2) = true) := by
        intro hall
        exact hbad ⟨hlen, fun p hp => List.all_eq_true.mp hall p hp⟩
      simp [hall]
    · have hb : (typeHashes.length != uType.length) = true := by simp [hlen]
      rw [hb]
      rfl
  refine ⟨hv, ?_⟩
  unfold coreCreateSystem
  simp [hv]

/-- Witness for C6 at scenario S4: Velocity (hash 11) and Position
(hash 22) registered as kinds, the system's hashes declared in
(Position, Velocity) order but the handles passed as
(Velocity_kind, Position_kind). -/
theorem claim6_registration_mismatch_throws_before_adding_witness :
    (¬(([22, 11] : List Nat).length =
        ([mkComponentId 1, mkComponentId 2] : List Nat).length ∧
      ∀ p ∈ ([mkComponentId 1, mkComponentId 2] : List Nat).zip [22, 11],
        emIsValidHash (emCreateComponent 22 (emCreateComponent 11 emInit).2).2
          p.1 p.2 = true))
    ∧ (verifySystemE (emCreateComponent 22 (emCreateComponent 11 emInit).2).2
        [mkComponentId 1, mkComponentId 2] [22, 11] = .error ()
      ∧ coreCreateSystem (emCreateComponent 22 (emCreateComponent 11 emInit).2).2
          smInit [mkComponentId 1, mkComponentId 2] [22, 11]
          { sysId := 0, order := 1, uType := [] } false [] = .error ()) :=
  ⟨by decide,
   claim6_registration_mismatch_throws_before_adding _ _ _ _ _ _ (by decide)⟩

/-- Lookup at a cons cell. -/
theorem alist.lookup_cons {β : Type} (a : Nat) (b : β) (l : List (Nat × β))
    (k : Nat) :
    alist.lookup ((a, b) :: l) k = if a = k then some b else alist.lookup l k := by
  by_cases h : a = k
  · simp [alist.lookup, List.find?, h]
  · have hb : (a == k) = false := by simp [h]
    simp [alist.lookup, List.find?, hb, h]

/-- Erasing a key removes its binding. -/
theorem alist.lookup_erase_self {β : Type} (l : List (Nat × β)) (k : Nat) :
    alist.lookup (alist.erase l k) k = none := by
  induction l with
  | nil => rfl
  | cons p rest ih =>
    rcases p with ⟨a, b⟩
    by_cases h : a = k
    · simpa [alist.erase, List.filter_cons, h] using ih
    · have hb : (a != k) = true := by simp [h]
      rw [alist.erase, List.filter_cons, if_pos hb, alist.lookup_cons, if_neg h]
      exact ih

/-- Erasing a key leaves every other key's binding unchanged. -/
theorem alist.lookup_erase_ne {β : Type} (l : List (Nat × β)) (k k' : Nat)
    (h : k' ≠ k) : alist.lookup (alist.erase l k) k' = alist.lookup l k' := by
  induction l with
  | nil => rfl
  | cons p rest ih =>
    rcases p with ⟨a, b⟩
    rw [alist.lookup_cons]
    by_cases ha : a = k
    · have hb : (a != k) = false := by simp [ha]
      have ha' : ¬(a = k') := fun hc => h (hc ▸ ha)
      rw [alist.erase, List.filter_cons, hb, if_neg ha']
      simpa [alist.erase] using ih
    · have hb : (a != k) = true := by simp [ha]
      rw [alist.erase, List.filter_cons, if_pos hb, alist.lookup_cons]
      by_cases ha' : a = k'
      · rw [if_pos ha', if_pos ha']
      · rw [if_neg ha', if_neg ha']
        simpa [alist.erase] using ih

/-- C10: `EntityManager::destroy(id)` erases only `id`'s entry in
`mEntityToHash`: afterwards `isValid(id)` is false, every other id's
binding, the default-component map and both counters are untouched, and
the `ArchetypeManager` (directory entry of the destroyed entity
included) and the `SystemManager` are left unchanged, so the destroyed
entity's rows keep being returned to system iteration by
`getArchetypesWithSubset`. -/
theorem claim10_destroy_is_validity_erase_only {V : Type} (w : World V)
    (id id' : Nat) (h : id' ≠ id) :
    emIsValid (worldDestroy w id).em id = false
    ∧ alist.lookup (worldDestroy w id).em.entityToHash id' =
        alist.lookup w.em.entityToHash id'
    ∧ (worldDestroy w id).em.hashToComponentId = w.em.hashToComponentId
    ∧ (worldDestroy w id).em.nextEntityId = w.em.nextEntityId
    ∧ (worldDestroy w id).em.nextComponentId = w.em.nextComponentId
    ∧ (worldDestroy w id).am = w.am
    ∧ (worldDestroy w id).sm = w.sm
    ∧ alist.lookup (worldDestroy w id).am.entityInformation id =
        alist.lookup w.am.entityInformation id
    ∧ (∀ u, getArchetypesWithSubset (worldDestroy w id).am u =
        getArchetypesWithSubset w.am u) :=
  ⟨by simp [emIsValid, worldDestroy, emDestroy, alist.lookup_erase_self],
   alist.lookup_erase_ne _ _ _ h, rfl, rfl, rfl, rfl, rfl, rfl, fun _ => rfl⟩

/-- Witness for C10: a world with two live entities `5` and `7`, entity
`5` holding a row in archetype `{1}`; destroy `5` and check against the
untouched `7`. -/
theorem claim10_destroy_is_validity_erase_only_witness :
    ((7 : Nat) ≠ 5)
    ∧ (let w : World Nat :=
        { em := { entityToHash := [(5, 1), (7, 1)], hashToComponentId := [],
                  nextEntityId := 3, nextComponentId := 1 },
          am := { archetypes := [([1], [(1, [4, 6])])],
                  entityInformation :=
                    [(5, { type := [1], componentIndex := 0 }),
                     (7, { type := [1], componentIndex := 1 })] },
          sm := smInit }
       emIsValid (worldDestroy w 5).em 5 = false
       ∧ alist.lookup (worldDestroy w 5).em.entityToHash 7 =
           alist.lookup w.em.entityToHash 7
       ∧ (worldDestroy w 5).em.hashToComponentId = w.em.hashToComponentId
       ∧ (worldDestroy w 5).em.nextEntityId = w.em.nextEntityId
       ∧ (worldDestroy w 5).em.nextComponentId = w.em.nextComponentId
       ∧ (worldDestroy w 5).am = w.am
       ∧ (worldDestroy w 5).sm = w.sm
       ∧ alist.lookup (worldDestroy w 5).am.entityInformation 5 =
           alist.lookup w.am.entityInformation 5
       ∧ (∀ u, getArchetypesWithSubset (worldDestroy w 5).am u =
           getArchetypesWithSubset w.am u)) :=
  ⟨by decide, claim10_destroy_is_validity_erase_only _ 5 7 (by decide)⟩

/-- The ids produced by `k` successive `createEntity` calls on a fresh
`EntityManager` (entity and component counters are independent, so
interleaved component registrations do not change this sequence). -/
def emEntityRun (eh : Nat) : Nat → List Nat × EMState
  | 0 => ([], emInit)
  | k + 1 =>
    let (ids, s) := emEntityRun eh k
    let (id, s') := emCreateEntity eh s
    (ids ++ [id], s')

/-- The ids produced by `k` successive `createComponent` calls on a fresh
`EntityManager`. -/
def emComponentRun (th : Nat) : Nat → List Nat × EMState
  | 0 => ([], emInit)
  | k + 1 =>
    let (ids, s) := emComponentRun th k
    let (id, s') := emCreateComponent th s
    (ids ++ [id], s')

/-- A bitwise-or of numbers occupying disjoint bit ranges is their sum. -/
theorem lor_eq_add_of_disjoint {a b k : Nat} (ha : a < 2 ^ k)
    (hb : b % 2 ^ k = 0) : a ||| b = a + b := by
  obtain ⟨q, hq⟩ : 2 ^ k ∣ b := Nat.dvd_of_mod_eq_zero hb
  subst hq
  apply Nat.eq_of_testBit_eq
  intro j
  rw [Nat.testBit_lor, Nat.add_comm a (2 ^ k * q),
    Nat.testBit_mul_pow_two_add q ha, Nat.testBit_mul_pow_two]
  by_cases hj : k ≤ j
  · have ha' : a.testBit j = false :=
      Nat.testBit_lt_two_pow
        (lt_of_lt_of_le ha (Nat.pow_le_pow_right (by norm_num) hj))
    simp [ha', hj, Nat.not_lt.mpr hj]
  · simp [Nat.lt_of_not_le hj, Nat.not_le.mp hj, hj]

/-- For an in-range index, the entity handle is the disjoint sum of its
three fields. -/
theorem mkEntityId_eq_add {n : Nat} (h : n < 2 ^ 32) :
    mkEntityId n = n + 2 ^ 32 + 2 ^ 56 := by
  have h1 : mkEntityId n = (n ||| 2 ^ 32) ||| 2 ^ 56 := by
    simp [mkEntityId, entityGenerationConstant, entityTypeFlagEntity,
      generationShift, typeShift, Nat.one_shiftLeft]
  rw [h1, lor_eq_add_of_disjoint h (by norm_num),
    lor_eq_add_of_disjoint (k := 33) (by omega) (by norm_num)]

/-- For an in-range index, the component handle is the index shifted up by
24 bits plus the kind tag `2` in the top byte. -/
theorem mkComponentId_eq_add {n : Nat} (h : n < 2 ^ 32) :
    mkComponentId n = n * 2 ^ 24 + 2 ^ 57 := by
  have hsh : n <<< 24 = n * 2 ^ 24 := Nat.shiftLeft_eq n 24
  have hlt : n * 2 ^ 24 < 2 ^ 56 := by
    have := Nat.mul_lt_mul_of_lt_of_le h (le_refl (2 ^ 24)) (by norm_num)
    calc n * 2 ^ 24 < 2 ^ 32 * 2 ^ 24 := this
      _ = 2 ^ 56 := by norm_num
  have h2 : (2 : Nat) <<< 56 = 2 ^ 57 := by
    rw [Nat.shiftLeft_eq]
    norm_num
    try ring
  have h3 : mkComponentId n = n * 2 ^ 24 ||| 2 ^ 57 := by
    rw [mkComponentId, componentIdShift, entityTypeFlagComponent, typeShift,
      hsh, h2, Nat.mod_eq_of_lt (lt_trans hlt (by unfold u64Mod; norm_num))]
  rw [h3, lor_eq_add_of_disjoint (k := 57) (lt_trans hlt (by norm_num)) (by norm_num)]

/-- The field values of an in-range entity handle. -/
theorem mkEntityId_fields {n : Nat} (h : n < 2 ^ 32) :
    idxField (mkEntityId n) = n ∧ genField (mkEntityId n) = 1 ∧
    tagField (mkEntityId n) = 1 := by
  rw [idxField, genField, tagField, mkEntityId_eq_add h,
    Nat.shiftRight_eq_div_pow, Nat.shiftRight_eq_div_pow]
  refine ⟨?_, ?_, ?_⟩ <;> omega

/-- The field values of an in-range component handle: the kind tag is 2,
bits 0 to 23 are zero, and the sequential index occupies bits 24 to 55. -/
theorem mkComponentId_fields {n : Nat} (h : n < 2 ^ 32) :
    tagField (mkComponentId n) = 2 ∧ mkComponentId n % 2 ^ 24 = 0 ∧
    (mkComponentId n >>> 24) % 2 ^ 32 = n := by
  rw [tagField, mkComponentId_eq_add h, Nat.shiftRight_eq_div_pow,
    Nat.shiftRight_eq_div_pow]
  refine ⟨?_, ?_, ?_⟩ <;> omega

/-- Counter evolution of the entity-creation run: after `k` calls the
counter holds `k + 1` and the ids handed out are `mkEntityId 1` through
`mkEntityId k` in order. -/
theorem emEntityRun_spec (eh : Nat) (k : Nat) (hk : k ≤ 2 ^ 32) :
    (emEntityRun eh k).2.nextEntityId = k + 1 ∧
    (emEntityRun eh k).1 = (List.range' 1 k).map mkEntityId := by
  induction k with
  | zero => exact ⟨rfl, rfl⟩
  | succ k ih =>
    obtain ⟨hc, hl⟩ := ih (le_of_lt (Nat.lt_of_succ_le hk))
    constructor
    · show ((emEntityRun eh k).2.nextEntityId + 1) % u64Mod = k + 1 + 1
      rw [hc]
      exact Nat.mod_eq_of_lt (by unfold u64Mod; omega)
    · show (emEntityRun eh k).1 ++ [mkEntityId (emEntityRun eh k).2.nextEntityId] =
        (List.range' 1 (k + 1)).map mkEntityId
      rw [hc, hl, List.range'_1_concat, List.map_append]
      simp [Nat.add_comm]

/-- Counter evolution of the component-registration run. -/
theorem emComponentRun_spec (th : Nat) (k : Nat) (hk : k ≤ 2 ^ 32) :
    (emComponentRun th k).2.nextComponentId = k + 1 ∧
    (emComponentRun th k).1 = (List.range' 1 k).map mkComponentId := by
  induction k with
  | zero => exact ⟨rfl, rfl⟩
  | succ k ih =>
    obtain ⟨hc, hl⟩ := ih (le_of_lt (Nat.lt_of_succ_le hk))
    constructor
    · show ((emComponentRun th k).2.nextComponentId + 1) % u64Mod = k + 1 + 1
      rw [hc]
      exact Nat.mod_eq_of_lt (by unfold u64Mod; omega)
    · show (emComponentRun th k).1 ++
          [mkComponentId (emComponentRun th k).2.nextComponentId] =
        (List.range' 1 (k + 1)).map mkComponentId
      rw [hc, hl, List.range'_1_concat, List.map_append]
      simp [Nat.add_comm]

/-- C8 counterexample: the very first `createComponent` registration on a
fresh `EntityManager` does not carry its sequential index 1 in bits
0 to 31 — those bits hold `2^24`, because the index is shifted left by
`mComponentIdShift = 24` before the kind tag is or-ed in. -/
theorem claim8_counterexample_component_index_not_in_low_bits :
    idxField (emCreateComponent 11 emInit).1 ≠ 1 ∧
    idxField (emCreateComponent 11 emInit).1 = 2 ^ 24 := by decide

/-- C8 (amended): the `n`-th `createEntity` call returns
`mkEntityId n = n + 2^32 + 2^56` — kind tag 1, generation field 1,
sequential index `n` in bits 0 to 31 — and the `n`-th component
registration returns `mkComponentId n = n * 2^24 + 2^57` — kind tag 2,
bits 0 to 23 zero, and the sequential index `n` carried in bits 24 to 55
(shifted left by `mComponentIdShift = 24`), not in bits 0 to 31.
Within the 32-bit index range all entity handles are pairwise distinct,
all component handles are pairwise distinct, and entity handles never
collide with component handles (their tag bytes differ). -/
theorem claim8_handle_encoding_amended (eh th n m : Nat) (hn : n < 2 ^ 32)
    (hm : m < 2 ^ 32) (hrun : n ≤ 2 ^ 32) :
    (emEntityRun eh n).1 = (List.range' 1 n).map mkEntityId
    ∧ (emComponentRun th n).1 = (List.range' 1 n).map mkComponentId
    ∧ tagField (mkEntityId n) = 1 ∧ genField (mkEntityId n) = 1
    ∧ idxField (mkEntityId n) = n
    ∧ tagField (mkComponentId n) = 2 ∧ mkComponentId n % 2 ^ 24 = 0
    ∧ (mkComponentId n >>> 24) % 2 ^ 32 = n
    ∧ (n ≠ m → mkEntityId n ≠ mkEntityId m)
    ∧ (n ≠ m → mkComponentId n ≠ mkComponentId m)
    ∧ mkEntityId n ≠ mkComponentId m := by
  obtain ⟨he1, he2, he3⟩ := mkEntityId_fields hn
  obtain ⟨hc1, hc2, hc3⟩ := mkComponentId_fields hm
  obtain ⟨hd1, hd2, hd3⟩ := mkComponentId_fields hn
  refine ⟨(emEntityRun_spec eh n hrun).2, (emComponentRun_spec th n hrun).2,
    he3, he2, he1, hd1, hd2, hd3, ?_, ?_, ?_⟩
  · intro hne hEq
    obtain ⟨hm1, _, _⟩ := mkEntityId_fields hm
    exact hne (he1 ▸ hm1 ▸ congrArg idxField hEq)
  · intro hne hEq
    obtain ⟨_, _, hm3⟩ := mkComponentId_fields hm
    exact hne (hd3 ▸ hm3 ▸ congrArg (fun x => (x >>> 24) % 2 ^ 32) hEq)
  · intro hEq
    have : tagField (mkEntityId n) = tagField (mkComponentId m) :=
      congrArg tagField hEq
    rw [he3, hc1] at this
    exact absurd this (by norm_num)

/-- Witness for C8 (amended) at `n = 2`, `m = 3`. -/
theorem claim8_handle_encoding_amended_witness :
    ((2 : Nat) < 2 ^ 32 ∧ (3 : Nat) < 2 ^ 32 ∧ (2 : Nat) ≤ 2 ^ 32)
    ∧ ((emEntityRun 9 2).1 = (List.range' 1 2).map mkEntityId
    ∧ (emComponentRun 11 2).1 = (List.range' 1 2).map mkComponentId
    ∧ tagField (mkEntityId 2) = 1 ∧ genField (mkEntityId 2) = 1
    ∧ idxField (mkEntityId 2) = 2
    ∧ tagField (mkComponentId 2) = 2 ∧ mkComponentId 2 % 2 ^ 24 = 0
    ∧ (mkComponentId 2 >>> 24) % 2 ^ 32 = 2
    ∧ ((2 : Nat) ≠ 3 → mkEntityId 2 ≠ mkEntityId 3)
    ∧ ((2 : Nat) ≠ 3 → mkComponentId 2 ≠ mkComponentId 3)
    ∧ mkEntityId 2 ≠ mkComponentId 3) :=
  ⟨⟨by norm_num, by norm_num, by norm_num⟩,
   claim8_handle_encoding_amended 9 11 2 3 (by norm_num) (by norm_num) (by norm_num)⟩

/-- Inserting a fresh key leaves every other key's binding unchanged. -/
theorem alist.lookup_insertNoReplace_ne {β : Type} (l : List (Nat × β))
    (k k' : Nat) (v : β) (h : k' ≠ k) :
    alist.lookup (alist.insertNoReplace l k v) k' = alist.lookup l k' := by
  unfold alist.insertNoReplace
  split
  · rfl
  · unfold alist.lookup
    rw [List.find?_append]
    cases hf : l.find? (fun p => p.1 == k')
    · have hk : ((k, v).1 == k') = false := by simp [Ne.symm h]
      simp [List.find?, hk]
    · simp

/-- Overwriting a key's value rewrites that binding. -/
theorem alist.lookup_setVal_self {β : Type} (l : List (Nat × β)) (k : Nat)
    (v : β) :
    alist.lookup (alist.setVal l k v) k = (alist.lookup l k).map (fun _ => v) := by
  induction l with
  | nil => rfl
  | cons p rest ih =>
    rcases p with ⟨a, b⟩
    by_cases h : a = k
    · simp [alist.setVal, alist.lookup_cons, h]
    · have hb : (a == k) = false := by simp [h]
      simp only [alist.setVal, List.map_cons, hb, Bool.false_eq_true, if_false]
      rw [alist.lookup_cons, if_neg h, alist.lookup_cons, if_neg h]
      exact ih

/-- Overwriting a key's value leaves other keys' bindings unchanged. -/
theorem alist.lookup_setVal_ne {β : Type} (l : List (Nat × β)) (k k' : Nat)
    (v : β) (h : k' ≠ k) :
    alist.lookup (alist.setVal l k v) k' = alist.lookup l k' := by
  induction l with
  | nil => rfl
  | cons p rest ih =>
    rcases p with ⟨a, b⟩
    by_cases ha : a = k
    · have hb : (a == k) = true := by simp [ha]
      have ha' : ¬(a = k') := fun hc => h (hc ▸ ha)
      simp only [alist.setVal, List.map_cons, hb, if_true]
      rw [alist.lookup_cons, if_neg ha', alist.lookup_cons, if_neg ha']
      exact ih
    · have hb : (a == k) = false := by simp [ha]
      simp only [alist.setVal, List.map_cons, hb, Bool.false_eq_true, if_false]
      rw [alist.lookup_cons, alist.lookup_cons]
      by_cases ha' : a = k'
      · rw [if_pos ha', if_pos ha']
      · rw [if_neg ha', if_neg ha']
        exact ih

/-- Overwriting a value preserves the key sequence. -/
theorem alist.keys_setVal {β : Type} (l : List (Nat × β)) (k : Nat) (v : β) :
    (alist.setVal l k v).map Prod.fst = l.map Prod.fst := by
  unfold alist.setVal
  rw [List.map_map]
  apply List.map_congr_left
  intro p _
  by_cases h : p.1 = k <;> simp [h]

/-- In a duplicate-free association list, every entry is what lookup of
its key returns. -/
theorem alist.lookup_of_mem_nodup {β : Type} (l : List (Nat × β))
    (hnd : (l.map Prod.fst).Nodup) (p : Nat × β) (hp : p ∈ l) :
    alist.lookup l p.1 = some p.2 := by
  induction l with
  | nil => cases hp
  | cons q rest ih =>
    rcases q with ⟨a, b⟩
    rw [List.map_cons, List.nodup_cons] at hnd
    rcases List.mem_cons.mp hp with hEq | hmem
    · subst hEq
      rw [alist.lookup_cons, if_pos rfl]
    · have hne : a ≠ p.1 := by
        intro hc
        apply hnd.1
        rw [hc]
        exact List.mem_map.mpr ⟨p, hmem, rfl⟩
      rw [alist.lookup_cons, if_neg hne]
      exact ih hnd.2 hmem

/-- Swap-removing row `i` shortens a column by one. -/
theorem swapRemoveCol_length {V : Type} [Inhabited V] (c : List V) (i : Nat) :
    (swapRemoveCol c i).length = c.length - 1 := by
  simp [swapRemoveCol]

/-- The value of the column recorded for `id` in a kind list, at row `i`
(default when absent) — the datum `transferTo` appends to the target's
paired column. -/
def kindValueAt {V : Type} [Inhabited V] (kinds : List (Nat × List V))
    (id i : Nat) : V :=
  (((kinds.find? (fun q => q.1 == id)).map (fun q => q.2)).getD []).getD i default

/-- The loop of `Archetype::transferTo`, characterised: when the target
owns a paired column for every kind still to process, the kind lists are
duplicate-free, and all processed columns share length `L > i`, the loop
succeeds; each processed source column is swap-removed at row `i`, each
paired target column gains that row's value, and the returned
`movedIndex` is `L - 1` (the vacated slot's filler) unless no kind was
processed. -/
theorem transferToGo_spec {V : Type} [Inhabited V] (i L : Nat) :
    ∀ (kinds : List (Nat × List V)), (kinds.map Prod.fst).Nodup →
    ∀ (src dst : Archetype V) (mi : Nat),
    (∀ p ∈ kinds, alookup src p.1 = some p.2) →
    (src.map Prod.fst).Nodup →
    (dst.map Prod.fst).Nodup →
    (∀ p ∈ kinds, (alookup dst p.1).isSome) →
    (∀ p ∈ kinds, p.2.length = L) →
    transferToGo kinds src dst i mi = .ok
      (src.map (fun p => if p.1 ∈ kinds.map Prod.fst then
          (p.1, swapRemoveCol p.2 i) else p),
       dst.map (fun p => if p.1 ∈ kinds.map Prod.fst then
          (p.1, p.2 ++ [kindValueAt kinds p.1 i]) else p),
       if kinds.isEmpty then mi else L - 1) := by
  intro kinds
  induction kinds with
  | nil =>
    intro _ src dst mi _ _ _ _ _
    simp [transferToGo]
  | cons q rest ih =>
    rcases q with ⟨id, col⟩
    intro hnd src dst mi hsub hsrcnd hdstnd hdst hL
    rw [List.map_cons, List.nodup_cons] at hnd
    obtain ⟨hid_notin, hndrest⟩ := hnd
    obtain ⟨dcol, hdcol⟩ :=
      Option.isSome_iff_exists.mp (hdst (id, col) (List.mem_cons_self _ _))
    have hscol : alookup src id = some col :=
      hsub (id, col) (List.mem_cons_self _ _)
    have hcolL : col.length = L := hL (id, col) (List.mem_cons_self _ _)
    have hstep : transferToGo ((id, col) :: rest) src dst i mi =
        transferToGo rest (aset src id (swapRemoveCol col i))
          (aset dst id (dcol ++ [col.getD i default])) i
          ((swapRemoveCol col i).length) := by
      rw [transferToGo, hdcol]
      simp only [transferItemToCols, hscol, Option.getD_some]
    have hmoved : (swapRemoveCol col i).length = L - 1 := by
      rw [swapRemoveCol_length, hcolL]
    rw [hstep, hmoved]
    rw [ih hndrest (aset src id (swapRemoveCol col i))
      (aset dst id (dcol ++ [col.getD i default])) (L - 1)
      (fun p hp => by
        have hne : p.1 ≠ id := by
          intro hc
          exact hid_notin (by rw [← hc]; exact List.mem_map.mpr ⟨p, hp, rfl⟩)
        show alist.lookup (alist.setVal src id (swapRemoveCol col i)) p.1 = some p.2
        rw [alist.lookup_setVal_ne _ _ _ _ hne]
        exact hsub p (List.mem_cons_of_mem _ hp))
      (by show (List.map Prod.fst (alist.setVal src id _)).Nodup
          rw [alist.keys_setVal]
          exact hsrcnd)
      (by show (List.map Prod.fst (alist.setVal dst id _)).Nodup
          rw [alist.keys_setVal]
          exact hdstnd)
      (fun p hp => by
        have hne : p.1 ≠ id := by
          intro hc
          exact hid_notin (by rw [← hc]; exact List.mem_map.mpr ⟨p, hp, rfl⟩)
        show (alist.lookup (alist.setVal dst id (dcol ++ [col.getD i default])) p.1).isSome = true
        rw [alist.lookup_setVal_ne _ _ _ _ hne]
        exact hdst p (List.mem_cons_of_mem _ hp))
      (fun p hp => hL p (List.mem_cons_of_mem _ hp))]
    have hsrcEq : (aset src id (swapRemoveCol col i)).map
        (fun p => if p.1 ∈ rest.map Prod.fst then (p.1, swapRemoveCol p.2 i) else p) =
        src.map (fun p => if p.1 ∈ List.map Prod.fst ((id, col) :: rest) then
          (p.1, swapRemoveCol p.2 i) else p) := by
      simp only [aset, alist.setVal, List.map_map]
      apply List.map_congr_left
      rintro ⟨p1, p2⟩ hp
      by_cases hpid : p1 = id
      · subst hpid
        have hpcol : p2 = col :=
          Option.some.inj
            ((alist.lookup_of_mem_nodup src hsrcnd (p1, p2) hp).symm.trans hscol)
        subst hpcol
        simp [Function.comp, hid_notin]
      · have hb : (p1 == id) = false := by simp [hpid]
        have hfx : (if (p1 == id) = true then (p1, swapRemoveCol col i)
            else (p1, p2)) = (p1, p2) := by
          rw [hb]
          simp
        simp only [Function.comp]
        rw [hfx]
        rw [List.map_cons]
        by_cases hm : p1 ∈ List.map Prod.fst rest
        · rw [if_pos hm, if_pos (List.mem_cons_of_mem _ hm)]
        · rw [if_neg hm,
            if_neg (by rw [List.mem_cons]; push_neg; exact ⟨hpid, hm⟩)]
    have hdstEq : (aset dst id (dcol ++ [col.getD i default])).map
        (fun p => if p.1 ∈ rest.map Prod.fst then
          (p.1, p.2 ++ [kindValueAt rest p.1 i]) else p) =
        dst.map (fun p => if p.1 ∈ List.map Prod.fst ((id, col) :: rest) then
          (p.1, p.2 ++ [kindValueAt ((id, col) :: rest) p.1 i]) else p) := by
      simp only [aset, alist.setVal, List.map_map]
      apply List.map_congr_left
      rintro ⟨p1, p2⟩ hp
      by_cases hpid : p1 = id
      · subst hpid
        have hpcol : p2 = dcol :=
          Option.some.inj
            ((alist.lookup_of_mem_nodup dst hdstnd (p1, p2) hp).symm.trans hdcol)
        subst hpcol
        have hval : kindValueAt ((p1, col) :: rest) p1 i = col.getD i default := by
          simp [kindValueAt, List.find?]
        simp [Function.comp, hid_notin, hval]
      · have hb : (p1 == id) = false := by simp [hpid]
        have hval : kindValueAt ((id, col) :: rest) p1 i =
            kindValueAt rest p1 i := by
          have hb2 : (id == p1) = false := by
            simp only [beq_eq_false_iff_ne]
            exact Ne.symm hpid
          simp [kindValueAt, List.find?, hb2]
        have hfx : (if (p1 == id) = true then (p1, dcol ++ [col.getD i default])
            else (p1, p2)) = (p1, p2) := by
          rw [hb]
          simp
        simp only [Function.comp, hval]
        rw [hfx]
        rw [List.map_cons]
        by_cases hm : p1 ∈ List.map Prod.fst rest
        · rw [if_pos hm, if_pos (List.mem_cons_of_mem _ hm)]
        · rw [if_neg hm,
            if_neg (by rw [List.mem_cons]; push_neg; exact ⟨hpid, hm⟩)]
    rw [hsrcEq, hdstEq]
    cases rest <;> simp

/-- C7 counterexample: a source archetype with kinds `{1, 2}` and a
target with only kind `1`.  `transferTo` does not drop the extra kind
and complete — the lookup `newArchetype.mIdToComponentIndex.at(2)`
throws (`std::out_of_range`), modelled as `.error ()`. -/
theorem claim7_counterexample_missing_kind_throws :
    transferToA ([(1, [10]), (2, [20])] : Archetype Nat) [(1, [])] 0 =
      Except.error () := rfl

/-- C7 (amended): `Archetype::transferTo(newArchetype, dataIndex)` moves
row `dataIndex` of every component kind of the source archetype into the
target's paired columns (each source column is swap-removed at that row,
each paired target column gains the moved value at its end) and returns
the index `rowCount - 1` of the row whose contents were swapped into the
vacated slot — provided the target owns a column for every source kind,
as the header demands (`newArchetype MUST be equal or larger`).  A kind
present in the source but missing from the target is not dropped: the
target map's `at` throws and the transfer does not complete.  (Dropping
the extra kinds is `transferFrom`'s job, which `remove` uses.) -/
theorem claim7_transferTo_migrates_row_amended {V : Type} [Inhabited V]
    (src dst : Archetype V) (i L : Nat)
    (hsup : ∀ p ∈ src, (alookup dst p.1).isSome)
    (hsrcnd : (src.map Prod.fst).Nodup)
    (hdstnd : (dst.map Prod.fst).Nodup)
    (hL : ∀ p ∈ src, p.2.length = L)
    (_hi : i < L) (hne : src ≠ []) :
    transferToA src dst i = .ok
      (src.map (fun p => (p.1, swapRemoveCol p.2 i)),
       dst.map (fun p => if p.1 ∈ src.map Prod.fst then
          (p.1, p.2 ++ [kindValueAt src p.1 i]) else p),
       L - 1) := by
  have hsub : ∀ p ∈ src, alookup src p.1 = some p.2 :=
    fun p hp => alist.lookup_of_mem_nodup src hsrcnd p hp
  rw [transferToA,
    transferToGo_spec i L src hsrcnd src dst 0 hsub hsrcnd hdstnd hsup hL]
  have h1 : src.map (fun p => if p.1 ∈ src.map Prod.fst then
      (p.1, swapRemoveCol p.2 i) else p) =
      src.map (fun p => (p.1, swapRemoveCol p.2 i)) :=
    List.map_congr_left (fun p hp => if_pos (List.mem_map.mpr ⟨p, hp, rfl⟩))
  have h2 : (if src.isEmpty then 0 else L - 1) = L - 1 := by
    cases src
    · exact absurd rfl hne
    · rfl
  rw [h1, h2]

/-- Witness for C7 (amended): two source kinds of two rows each, a target
owning both plus a third kind, moving row 0. -/
theorem claim7_transferTo_migrates_row_amended_witness :
    ((∀ p ∈ ([(1, [10, 11]), (2, [20, 21])] : Archetype Nat),
        (alookup ([(1, [5]), (2, [6]), (3, [7])] : Archetype Nat) p.1).isSome)
      ∧ (([(1, [10, 11]), (2, [20, 21])] : Archetype Nat).map Prod.fst).Nodup
      ∧ (([(1, [5]), (2, [6]), (3, [7])] : Archetype Nat).map Prod.fst).Nodup
      ∧ (∀ p ∈ ([(1, [10, 11]), (2, [20, 21])] : Archetype Nat), p.2.length = 2)
      ∧ (0 : Nat) < 2
      ∧ ([(1, [10, 11]), (2, [20, 21])] : Archetype Nat) ≠ [])
    ∧ transferToA ([(1, [10, 11]), (2, [20, 21])] : Archetype Nat)
        [(1, [5]), (2, [6]), (3, [7])] 0 = .ok
      (([(1, [10, 11]), (2, [20, 21])] : Archetype Nat).map
        (fun p => (p.1, swapRemoveCol p.2 0)),
       ([(1, [5]), (2, [6]), (3, [7])] : Archetype Nat).map
        (fun p => if p.1 ∈ ([(1, [10, 11]), (2, [20, 21])] :
            Archetype Nat).map Prod.fst then
          (p.1, p.2 ++ [kindValueAt [(1, [10, 11]), (2, [20, 21])] p.1 0]) else p),
       1) :=
  ⟨⟨by decide, by decide, by decide, by decide, by decide, by decide⟩,
   claim7_transferTo_migrates_row_amended _ _ 0 2 (by decide) (by decide)
     (by decide) (by decide) (by decide) (by decide)⟩

/-! ### Scenario S3 (claim C3)

Create an entity, register Position (type hash 22), attach Position 42
to the entity, destroy the entity, create a fresh entity, then call
`Core::getComponent<Position>` with the old handle. -/

/-- The first created entity's handle. -/
def s3OldHandle : Nat := (emCreateEntity 9 emInit).1

/-- The Position component's handle. -/
def s3ComponentId : Nat := (emCreateComponent 22 (emCreateEntity 9 emInit).2).1

/-- The `EntityManager` after creating the entity and the component. -/
def s3Em2 : EMState := (emCreateComponent 22 (emCreateEntity 9 emInit).2).2

/-- The archetype state after `add(e, Position, 42)`. -/
def s3Am : AMState Nat := addNew (amInit Nat) s3OldHandle s3ComponentId 42

/-- The `EntityManager` after destroying the first entity. -/
def s3EmAfterDestroy : EMState := emDestroy s3Em2 s3OldHandle

/-- The fresh entity created after the destroy. -/
def s3NewHandle : Nat := (emCreateEntity 9 s3EmAfterDestroy).1

/-- The `EntityManager` after the post-destroy creation. -/
def s3EmFinal : EMState := (emCreateEntity 9 s3EmAfterDestroy).2

/-- The `Core::getComponent<Position>(old_handle, Position_kind)` call of
scenario S3. -/
def s3Result : Except Unit Nat :=
  coreGetComponent s3EmFinal s3Am s3OldHandle s3ComponentId 22

/-- C3 counterexample: in scenario S3 the `getComponent` call with the
stale handle does not fail — it returns the destroyed entity's stored
Position value 42, because `Core::getComponent` validates only the
component id and `destroy` neither touches the archetype data nor any
generation counter; moreover the replacement entity's generation field
equals the old one's (both are the constant 1), refuting the claimed
strict increase across reuse. -/
theorem claim3_counterexample_stale_read_succeeds :
    s3Result = Except.ok 42
    ∧ genField s3NewHandle = genField s3OldHandle
    ∧ s3NewHandle ≠ s3OldHandle :=
  ⟨rfl, rfl, by decide⟩

/-- C3 (amended): the generation field of every entity handle is the
constant 1 — it is never incremented, and entity indexes are never
reused (the counter only grows), so a destroyed handle indeed never
validates again: after `destroy(id)`, `isValid(id)` is false, and
creating further entities yields handles different from `id` and leaves
`id` invalid.  But staleness is not a hard error on reads:
`Core::getComponent` never validates the entity handle, so scenario S3's
call succeeds and returns the destroyed entity's stored value. -/
theorem claim3_stale_handle_semantics_amended (eh : Nat) (s : EMState)
    (id n : Nat) (hn : n < 2 ^ 32) (hidx : idxField id < s.nextEntityId)
    (hctr : s.nextEntityId < 2 ^ 32) :
    genField (mkEntityId n) = 1
    ∧ emIsValid (emDestroy s id) id = false
    ∧ (emCreateEntity eh s).1 ≠ id
    ∧ emIsValid (emCreateEntity eh s).2 id = emIsValid s id
    ∧ s3Result = Except.ok 42 := by
  have hfields := mkEntityId_fields (lt_trans hidx hctr)
  refine ⟨(mkEntityId_fields hn).2.1, ?_, ?_, ?_, rfl⟩
  · simp [emIsValid, emDestroy, alist.lookup_erase_self]
  · intro hEq
    have : idxField (mkEntityId s.nextEntityId) = idxField id := by
      simp [emCreateEntity] at hEq
      rw [hEq]
    rw [(mkEntityId_fields hctr).1] at this
    omega
  · have hne : id ≠ mkEntityId s.nextEntityId := by
      intro hEq
      have := congrArg idxField hEq
      rw [(mkEntityId_fields hctr).1] at this
      omega
    simp [emCreateEntity, emIsValid,
      alist.lookup_insertNoReplace_ne _ _ _ _ hne]

/-- Witness for C3 (amended): the S3 state after the destroy
(`nextEntityId = 2`), the stale handle, and a sample index `n = 5`. -/
theorem claim3_stale_handle_semantics_amended_witness :
    ((5 : Nat) < 2 ^ 32 ∧ idxField s3OldHandle < s3EmAfterDestroy.nextEntityId
      ∧ s3EmAfterDestroy.nextEntityId < 2 ^ 32)
    ∧ (genField (mkEntityId 5) = 1
    ∧ emIsValid (emDestroy s3EmAfterDestroy s3OldHandle) s3OldHandle = false
    ∧ (emCreateEntity 9 s3EmAfterDestroy).1 ≠ s3OldHandle
    ∧ emIsValid (emCreateEntity 9 s3EmAfterDestroy).2 s3OldHandle =
        emIsValid s3EmAfterDestroy s3OldHandle
    ∧ s3Result = Except.ok 42) :=
  ⟨⟨by norm_num, by decide, by decide⟩,
   claim3_stale_handle_semantics_amended 9 s3EmAfterDestroy s3OldHandle 5
     (by norm_num) (by decide) (by decide)⟩

/-- C1: evaluating `ArchetypeManager::remove` at scenario S2 (ten
entities in the `{Velocity, Position}` archetype, remove Velocity from
the 6th).  The old archetype's row count drops to 9, the new `{Position}`
archetype has row count 1, and the 10th entity's entry is rewritten to
row 5 — exactly as the claim states — but the removed entity's directory
entry becomes `({Position}, 8)`: the code assigns `count - 1` where
`count` is the OLD archetype's post-removal column count, so the row
index is not strictly below the new archetype's row count 1 and the
directory invariant is not restored. -/
theorem claim1_remove_breaks_directory_invariant :
    s2State.map (fun s =>
      ((findA s [1, 2]).map archColLengths,
       (findA s [2]).map archColLengths,
       alist.lookup s.entityInformation 109,
       alist.lookup s.entityInformation 105,
       dirInvariantAt s 105)) =
    Except.ok (some [9, 9], some [1],
      some { type := [1, 2], componentIndex := 5 },
      some { type := [2], componentIndex := 8 }, false) := rfl

/-- C2: evaluating a second `add` of an already-carried kind.  Before,
entity 100 sits at row 0 of the one-row archetype `{1}` holding value 7.
The second `add(100, 1, 9)` does not overwrite in place: it appends 9 to
kind 1's column (row count grows from 1 to 2, the stale 7 remains at
row 0) and repoints the entity at the appended row 1.  Only the claim's
archetype-membership and read-back parts survive: the entity's set stays
`{1}` and reading kind 1 yields 9. -/
theorem claim2_second_add_appends_instead_of_overwriting :
    findA c2Before [1] = some [(1, [7])]
    ∧ alist.lookup c2Before.entityInformation 100 =
        some { type := [1], componentIndex := 0 }
    ∧ c2After.map (fun s => (findA s [1], alist.lookup s.entityInformation 100)) =
        Except.ok (some [(1, [7, 9])], some { type := [1], componentIndex := 1 })
    ∧ (c2After >>= fun s => amGetComponent s 100 1) = Except.ok 9 :=
  ⟨rfl, rfl, rfl, rfl⟩

/-- C9: evaluating the round trip `add(e, K, v); remove(e, K)` for an
entity that did not carry `K`.  Entity 100 starts at `({1}, 0)`; after
`add(100, 2, 9); remove(100, 2)` the archetype membership and all row
counts are restored (`{1}` again holds exactly `[7]`, `{1, 2}` is
empty), but the entity's directory entry is `({1}, 2^64 - 1)`: `remove`
assigns `count - 1` in `uint64_t` where `count` is the old archetype's
post-removal column count 0, so the row index underflows instead of
returning to 0 and the resulting state is not structurally equivalent to
the initial one — the directory invariant is broken. -/
theorem claim9_round_trip_corrupts_directory_row :
    alist.lookup c9Before.entityInformation 100 =
        some { type := [1], componentIndex := 0 }
    ∧ dirInvariantAt c9Before 100 = true
    ∧ c9After.map (fun s =>
        (alist.lookup s.entityInformation 100, findA s [1], findA s [1, 2],
         dirInvariantAt s 100)) =
      Except.ok (some { type := [1], componentIndex := 18446744073709551615 },
        some [(1, [7])], some [(1, []), (2, [])], false) :=
  ⟨rfl, rfl, rfl⟩

end ECS
